import Mathlib

/-!
# embedded-postgres: configuration model and default unpacker

A shallow embedding of `config.go` and `unpacker.go`.

Conventions of the embedding

* A Go `string` is a Lean `String`.  The path functions only look at the bytes
  `/` and `.`, which are single ASCII bytes, so working on characters instead of
  bytes changes nothing.
* An `error` is `Option String`: `none` is `nil`, `some msg` is an error whose
  `Error()` text is `msg`.
* A nilable function or interface value is an `Option`.
* `time.Duration` is an `Int` counting nanoseconds; `uint32` is a `Nat`
  (no arithmetic is performed on the port).
* `os.Getwd()` is the one read of the outside world.  Its result pair
  `(dir, err)` is passed to the two path builders as a `WdLookup`.
* `filepath.IsAbs`, `filepath.Join`, `filepath.Clean` are the Go standard
  library functions for Unix-like targets (`Separator = '/'`, no volume names),
  transcribed statement by statement.
* The types `CacheLocator` and `RemoteFetchStrategy` are declared outside
  `config.go`; the configuration is parametric in them (`CL`, `RF`).
-/

namespace EmbeddedPostgres

/-! ## Go standard library: `os`, `strings`, `path/filepath` (Unix) -/

/-- Result pair of `os.Getwd()`: the directory and the error. -/
structure WdLookup where
  dir : String
  err : Option String
  deriving DecidableEq, Repr

/-- Go `os.IsPathSeparator` on Unix: `PathSeparator == c` with `PathSeparator = '/'`. -/
def IsPathSeparator (c : Char) : Bool := c == '/'

/-- Go `filepath.IsAbs` on Unix: `strings.HasPrefix(path, "/")`. -/
def IsAbs (path : String) : Bool :=
  match path.data with
  | [] => false
  | c :: _ => c == '/'

/-- Loop guard helper of `Clean`: `r+k == n || os.IsPathSeparator(path[r+k])`,
on the part of the path that starts at index `r+k`. -/
def atEndOrSep : List Char → Bool
  | [] => true
  | c :: _ => IsPathSeparator c

/-- Inner loop of the `..` case of `Clean`, after the first `out.w--`:
`for out.w > dotdot && !os.IsPathSeparator(out.index(out.w)) { out.w-- }`.
`buf` is the buffer content before backtracking, the argument is `out.w`,
the result is the final `out.w`. -/
def backtrackLoop (buf : List Char) (dotdot : Nat) : Nat → Nat
  | 0 => 0
  | w + 1 =>
    if dotdot < w + 1 && !IsPathSeparator (buf.getD (w + 1) '/') then
      backtrackLoop buf dotdot w
    else
      w + 1

/-- Buffer after the `..` element is appended in the unrooted case:
`if out.w > 0 { out.append(Separator) }; out.append('.'); out.append('.')`. -/
def appendDotDot (out : List Char) : List Char :=
  (if 0 < out.length then out ++ ['/'] else out) ++ ['.', '.']

/-- Buffer after the "add slash if needed" step of a real path element:
`if rooted && out.w != 1 || !rooted && out.w != 0 { out.append(Separator) }`. -/
def addSlashIfNeeded (rooted : Bool) (out : List Char) : List Char :=
  if (rooted && out.length != 1) || (!rooted && out.length != 0) then out ++ ['/'] else out

/-- Second case of the switch of `Clean`, a `.` element:
`path[r] == '.' && (r+1 == n || os.IsPathSeparator(path[r+1]))`;
`c` is `path[r]` and `cs` is `path[r+1:]`. -/
def dotElem (c : Char) (cs : List Char) : Bool :=
  c == '.' && atEndOrSep cs

/-- Third case of the switch of `Clean`, a `..` element:
`path[r] == '.' && path[r+1] == '.' && (r+2 == n || os.IsPathSeparator(path[r+2]))`.
The case is only reached when the second one failed, so `path[r+1]` exists
whenever `path[r] == '.'`. -/
def dotDotElem (c : Char) (cs : List Char) : Bool :=
  c == '.' && (match cs with
    | [] => false
    | d :: ds => d == '.' && atEndOrSep ds)

/-- Main loop `for r < n { switch ... }` of `filepath.Clean`.
State: `rest` is `path[r:]`, `out` is the written part of the buffer
(`out.w = out.length`), `dotdot` as in the source.  Each iteration consumes at
least one byte, so the fuel counts iterations; `none` only on exhausted fuel. -/
def cleanLoop (rooted : Bool) : Nat → List Char → List Char → Nat → Option (List Char)
  | _, [], out, _ => some out
  | 0, _ :: _, _, _ => none
  | fuel + 1, c :: cs, out, dotdot =>
    if IsPathSeparator c then
      -- empty path element
      cleanLoop rooted fuel cs out dotdot
    else if dotElem c cs then
      -- . element
      cleanLoop rooted fuel cs out dotdot
    else if dotDotElem c cs then
      -- .. element: remove to last separator
      if dotdot < out.length then
        -- can backtrack
        cleanLoop rooted fuel cs.tail
          (out.take (backtrackLoop out dotdot (out.length - 1))) dotdot
      else if !rooted then
        -- cannot backtrack, but not rooted, so append .. element.
        cleanLoop rooted fuel cs.tail (appendDotDot out) (appendDotDot out).length
      else
        cleanLoop rooted fuel cs.tail out dotdot
    else
      -- real path element: add slash if needed, copy element
      cleanLoop rooted fuel ((c :: cs).dropWhile (fun x => !IsPathSeparator x))
        (addSlashIfNeeded rooted out ++ (c :: cs).takeWhile (fun x => !IsPathSeparator x))
        dotdot

/-- Body of `filepath.Clean` on the bytes of the path (Unix: `volLen = 0`,
`FromSlash` is the identity). -/
def cleanChars (path : List Char) : List Char :=
  match path with
  | [] => ['.']
  | c :: cs =>
    let rooted := IsPathSeparator c
    let res :=
      if rooted then cleanLoop rooted (c :: cs).length cs ['/'] 1
      else cleanLoop rooted (c :: cs).length (c :: cs) [] 0
    let out := res.getD []
    -- Turn empty string into "."
    if out.length == 0 then ['.'] else out

/-- Go `filepath.Clean`. -/
def Clean (path : String) : String := ⟨cleanChars path.data⟩

/-- Go `strings.Join(elems, sep)`. -/
def stringsJoin (sep : String) : List String → String
  | [] => ""
  | [a] => a
  | a :: b :: rest => a ++ sep ++ stringsJoin sep (b :: rest)

/-- Go `filepath.Join` on Unix: the first non-empty element onwards is joined
with `/` and cleaned; all-empty input gives the empty string. -/
def Join : List String → String
  | [] => ""
  | e :: es => if e ≠ "" then Clean (stringsJoin "/" (e :: es)) else Join es

/-! ## `config.go` -/

/-- Go `type PostgresVersion string`. -/
abbrev PostgresVersion := String

def V13 : PostgresVersion := "13.2.0"
def V12 : PostgresVersion := "12.6.0"
def V11 : PostgresVersion := "11.11.0"
def V10 : PostgresVersion := "10.16.0"
def V9 : PostgresVersion := "9.6.21"

/-- Values of `io.Writer` that matter to the configuration: the process
standard output `os.Stdout`, or any other writer (identified by a tag). -/
inductive Writer
  | osStdout
  | other (tag : Nat)
  deriving DecidableEq, Repr

/-- Go `time.Second` in nanoseconds. -/
def Second : Int := 1000000000

/-- Go `type Unpacker func(source string, destination string) error`. -/
abbrev Unpacker := String → String → Option String

/-- Go `type Config struct`, all thirteen fields in source order. -/
structure Config (CL RF : Type) where
  version : PostgresVersion
  port : Nat
  database : String
  username : String
  password : String
  runtimePath : String
  dataPath : String
  locale : String
  startTimeout : Int
  logger : Option Writer
  cacheLocator : Option CL
  remoteFetchStrategy : Option RF
  unpacker : Option Unpacker

variable {CL RF : Type}

/-- Go `func DefaultConfig() Config`: the fields not listed in the composite
literal take their zero value. -/
def DefaultConfig : Config CL RF :=
  { version := V12
    port := 5432
    database := "postgres"
    username := "postgres"
    password := "postgres"
    runtimePath := ""
    dataPath := ""
    locale := ""
    startTimeout := 15 * Second
    logger := some Writer.osStdout
    cacheLocator := none
    remoteFetchStrategy := none
    unpacker := none }

namespace Config

/-- Go `func (c Config) Version(version PostgresVersion) Config`. -/
def Version (c : Config CL RF) (version : PostgresVersion) : Config CL RF :=
  { c with version := version }

/-- Go `func (c Config) Port(port uint32) Config`. -/
def Port (c : Config CL RF) (port : Nat) : Config CL RF :=
  { c with port := port }

/-- Go `func (c Config) Database(database string) Config`. -/
def Database (c : Config CL RF) (database : String) : Config CL RF :=
  { c with database := database }

/-- Go `func (c Config) Username(username string) Config`. -/
def Username (c : Config CL RF) (username : String) : Config CL RF :=
  { c with username := username }

/-- Go `func (c Config) Password(password string) Config`. -/
def Password (c : Config CL RF) (password : String) : Config CL RF :=
  { c with password := password }

/-- Go `func (c Config) RuntimePath(path string) Config`; `getwd` is what
`os.Getwd()` returns at the time of the call, its error is discarded
(`wd, _ := os.Getwd()`). -/
def RuntimePath (c : Config CL RF) (getwd : WdLookup) (path : String) : Config CL RF :=
  if IsAbs path then
    { c with runtimePath := path }
  else
    let wd := getwd.dir
    { c with runtimePath := Join [wd, path] }

/-- Go `func (c Config) DataPath(path string) Config`; `getwd` as for
`RuntimePath`. -/
def DataPath (c : Config CL RF) (getwd : WdLookup) (path : String) : Config CL RF :=
  if IsAbs path then
    { c with dataPath := path }
  else
    let wd := getwd.dir
    { c with dataPath := Join [wd, path] }

/-- Go `func (c Config) Locale(locale string) Config`. -/
def Locale (c : Config CL RF) (locale : String) : Config CL RF :=
  { c with locale := locale }

/-- Go `func (c Config) StartTimeout(timeout time.Duration) Config`. -/
def StartTimeout (c : Config CL RF) (timeout : Int) : Config CL RF :=
  { c with startTimeout := timeout }

/-- Go `func (c Config) Logger(logger io.Writer) Config`. -/
def Logger (c : Config CL RF) (logger : Option Writer) : Config CL RF :=
  { c with logger := logger }

/-- Go `func (c Config) CacheLocator(cl CacheLocator) Config`. -/
def CacheLocator (c : Config CL RF) (cl : Option CL) : Config CL RF :=
  { c with cacheLocator := cl }

/-- Go `func (c Config) Unpacker(u Unpacker) Config`. -/
def Unpacker (c : Config CL RF) (u : Option EmbeddedPostgres.Unpacker) : Config CL RF :=
  { c with unpacker := u }

end Config

/-! ## `unpacker.go` -/

/-- Go `func defaultUnpacker() Unpacker`.  `unarchive` stands for
`archiver.NewTarXz().Unarchive`, the tar.xz extraction of the external
archiver library; `fmt.Errorf` with two `%s` verbs splices the two strings in. -/
def defaultUnpacker (unarchive : String → String → Option String) : Unpacker :=
  fun source destination =>
    match unarchive source destination with
    | some _ => some ("unable to extract postgres archive " ++ source ++ " to " ++ destination)
    | none => none

/-! ## Vocabulary of the statements -/

/-- Names of the thirteen fields of `Config`. -/
inductive Field
  | version | port | database | username | password | runtimePath | dataPath
  | locale | startTimeout | logger | cacheLocator | remoteFetchStrategy | unpacker
  deriving DecidableEq, Repr

/-- Two configurations hold the same value in every field other than `f`. -/
def agreeOutside (f : Field) (a b : Config CL RF) : Prop :=
  (f ≠ Field.version → a.version = b.version) ∧
  (f ≠ Field.port → a.port = b.port) ∧
  (f ≠ Field.database → a.database = b.database) ∧
  (f ≠ Field.username → a.username = b.username) ∧
  (f ≠ Field.password → a.password = b.password) ∧
  (f ≠ Field.runtimePath → a.runtimePath = b.runtimePath) ∧
  (f ≠ Field.dataPath → a.dataPath = b.dataPath) ∧
  (f ≠ Field.locale → a.locale = b.locale) ∧
  (f ≠ Field.startTimeout → a.startTimeout = b.startTimeout) ∧
  (f ≠ Field.logger → a.logger = b.logger) ∧
  (f ≠ Field.cacheLocator → a.cacheLocator = b.cacheLocator) ∧
  (f ≠ Field.remoteFetchStrategy → a.remoteFetchStrategy = b.remoteFetchStrategy) ∧
  (f ≠ Field.unpacker → a.unpacker = b.unpacker)

/-- One call of a builder of `config.go`: the method together with its
argument.  These are all the methods with receiver `Config`. -/
inductive Builder (CL RF : Type)
  | Version (version : PostgresVersion)
  | Port (port : Nat)
  | Database (database : String)
  | Username (username : String)
  | Password (password : String)
  | RuntimePath (path : String)
  | DataPath (path : String)
  | Locale (locale : String)
  | StartTimeout (timeout : Int)
  | Logger (logger : Option Writer)
  | CacheLocator (cl : Option CL)
  | Unpacker (u : Option EmbeddedPostgres.Unpacker)

/-- Run one builder call on `c`, with `getwd` the state of the working
directory lookup at that moment. -/
def Builder.apply (getwd : WdLookup) (c : Config CL RF) : Builder CL RF → Config CL RF
  | Builder.Version v => c.Version v
  | Builder.Port p => c.Port p
  | Builder.Database d => c.Database d
  | Builder.Username u => c.Username u
  | Builder.Password p => c.Password p
  | Builder.RuntimePath p => c.RuntimePath getwd p
  | Builder.DataPath p => c.DataPath getwd p
  | Builder.Locale l => c.Locale l
  | Builder.StartTimeout t => c.StartTimeout t
  | Builder.Logger l => c.Logger l
  | Builder.CacheLocator cl => c.CacheLocator cl
  | Builder.Unpacker u => c.Unpacker u

/-- The field a builder call is named after. -/
def Builder.field : Builder CL RF → Field
  | Builder.Version _ => Field.version
  | Builder.Port _ => Field.port
  | Builder.Database _ => Field.database
  | Builder.Username _ => Field.username
  | Builder.Password _ => Field.password
  | Builder.RuntimePath _ => Field.runtimePath
  | Builder.DataPath _ => Field.dataPath
  | Builder.Locale _ => Field.locale
  | Builder.StartTimeout _ => Field.startTimeout
  | Builder.Logger _ => Field.logger
  | Builder.CacheLocator _ => Field.cacheLocator
  | Builder.Unpacker _ => Field.unpacker

/-- Decimal value of a run of digits. -/
def parseDigits (cs : List Char) : Nat :=
  cs.foldl (fun n c => 10 * n + (c.toNat - '0'.toNat)) 0

/-- Split at every `.`. -/
def splitDots : List Char → List (List Char)
  | [] => [[]]
  | c :: cs =>
    match splitDots cs with
    | [] => [[c]]
    | x :: xs => if c == '.' then [] :: x :: xs else (c :: x) :: xs

/-- Numeric components of a version string, `"12.6.0"` giving `[12, 6, 0]`. -/
def semverParts (v : PostgresVersion) : List Nat :=
  (splitDots v.data).map parseDigits

/-- Lexicographic comparison of component lists. -/
def lexLt : List Nat → List Nat → Bool
  | [], [] => false
  | [], _ :: _ => true
  | _ :: _, [] => false
  | a :: as, b :: bs => a < b || (a == b && lexLt as bs)

/-- Semantic-version order on version strings: `a` is an older release than `b`. -/
def semverLt (a b : PostgresVersion) : Bool :=
  lexLt (semverParts a) (semverParts b)

/-- The predefined versions of `config.go`. -/
def predefinedVersions : List PostgresVersion := [V13, V12, V11, V10, V9]

/-- Substring relation on strings: `needle` occurs inside `hay`. -/
def occursIn (needle hay : String) : Prop :=
  ∃ before after : String, hay = before ++ needle ++ after

/-! ## Concrete lookups used in the examples -/

/-- A lookup that failed: Go returns the empty directory with the error. -/
def failedLookup : WdLookup :=
  { dir := "", err := some "getwd: no such file or directory" }

/-- A successful lookup that reports the directory with a trailing slash, as
`os.Getwd` does when `$PWD` is `/tmp/` and names the current directory. -/
def trailingSlashLookup : WdLookup :=
  { dir := "/tmp/", err := none }

/-- A successful lookup in `/home/u`. -/
def homeLookup : WdLookup :=
  { dir := "/home/u", err := none }

/-- A successful lookup in `/srv`. -/
def srvLookup : WdLookup :=
  { dir := "/srv", err := none }

/-! ## Helper lemmas -/

theorem apply_keeps_remoteFetchStrategy (getwd : WdLookup) (c : Config CL RF)
    (b : Builder CL RF) :
    (b.apply getwd c).remoteFetchStrategy = c.remoteFetchStrategy := by
  cases b <;> simp only [Builder.apply, Config.Version, Config.Port, Config.Database,
    Config.Username, Config.Password, Config.Locale, Config.StartTimeout, Config.Logger,
    Config.CacheLocator, Config.Unpacker]
  · unfold Config.RuntimePath; split <;> rfl
  · unfold Config.DataPath; split <;> rfl

theorem apply_agreeOutside (getwd : WdLookup) (c : Config CL RF) (b : Builder CL RF) :
    agreeOutside b.field (b.apply getwd c) c := by
  cases b <;> simp only [Builder.apply, Builder.field, Config.Version, Config.Port,
    Config.Database, Config.Username, Config.Password, Config.Locale, Config.StartTimeout,
    Config.Logger, Config.CacheLocator, Config.Unpacker]
  case RuntimePath p => unfold Config.RuntimePath; split <;> simp [agreeOutside]
  case DataPath p => unfold Config.DataPath; split <;> simp [agreeOutside]
  all_goals simp [agreeOutside]

theorem Join_pair_of_ne (wd p : String) (h : wd ≠ "") :
    Join [wd, p] = Clean (wd ++ "/" ++ p) := by
  simp [Join, stringsJoin, h]

theorem Join_empty_left (p : String) :
    Join ["", p] = if p = "" then "" else Clean p := by
  by_cases h : p = "" <;> simp [Join, stringsJoin, h]

theorem RuntimePath_abs (c : Config CL RF) (getwd : WdLookup) (p : String)
    (h : IsAbs p = true) : c.RuntimePath getwd p = { c with runtimePath := p } := by
  simp [Config.RuntimePath, h]

theorem DataPath_abs (c : Config CL RF) (getwd : WdLookup) (p : String)
    (h : IsAbs p = true) : c.DataPath getwd p = { c with dataPath := p } := by
  simp [Config.DataPath, h]

theorem RuntimePath_rel (c : Config CL RF) (getwd : WdLookup) (p : String)
    (h : IsAbs p = false) :
    c.RuntimePath getwd p = { c with runtimePath := Join [getwd.dir, p] } := by
  simp [Config.RuntimePath, h]

theorem DataPath_rel (c : Config CL RF) (getwd : WdLookup) (p : String)
    (h : IsAbs p = false) :
    c.DataPath getwd p = { c with dataPath := Join [getwd.dir, p] } := by
  simp [Config.DataPath, h]

/-! ## Facts about `filepath.Clean` -/

theorem backtrackLoop_ge (buf : List Char) (dotdot : Nat) :
    ∀ w, dotdot ≤ w → dotdot ≤ backtrackLoop buf dotdot w := by
  intro w
  induction w with
  | zero => intro h; simpa [backtrackLoop] using h
  | succ w ih =>
    intro h
    unfold backtrackLoop
    split
    · rename_i hc
      simp only [Bool.and_eq_true, decide_eq_true_eq] at hc
      exact ih (by omega)
    · exact h

theorem dropWhile_notSep_length (c : Char) (cs : List Char) (hc : IsPathSeparator c = false) :
    ((c :: cs).dropWhile (fun x => !IsPathSeparator x)).length ≤ cs.length := by
  rw [List.dropWhile_cons_of_pos (by simp [hc])]
  exact (List.dropWhile_sublist _).length_le

/-- The loop of `Clean` finishes: fuel equal to the number of remaining bytes
is enough. -/
theorem cleanLoop_isSome (rooted : Bool) :
    ∀ (fuel : Nat) (rest out : List Char) (dotdot : Nat), rest.length ≤ fuel →
      ∃ res, cleanLoop rooted fuel rest out dotdot = some res := by
  intro fuel
  induction fuel with
  | zero =>
    intro rest out dotdot h
    cases rest with
    | nil => exact ⟨out, by simp [cleanLoop]⟩
    | cons c cs => simp at h
  | succ fuel ih =>
    intro rest out dotdot h
    cases rest with
    | nil => exact ⟨out, by simp [cleanLoop]⟩
    | cons c cs =>
      have hcs : cs.length ≤ fuel := by simpa using h
      have htl : cs.tail.length ≤ fuel := by
        have := List.length_tail cs
        omega
      unfold cleanLoop
      split_ifs with h1 h2 h3 h4 h5
      · exact ih _ _ _ hcs
      · exact ih _ _ _ hcs
      · exact ih _ _ _ htl
      · exact ih _ _ _ htl
      · exact ih _ _ _ htl
      · exact ih _ _ _ (le_trans (dropWhile_notSep_length c cs (by simpa using h1)) hcs)

/-- With enough fuel the result of the loop does not depend on the fuel. -/
theorem cleanLoop_fuel (rooted : Bool) :
    ∀ (f1 f2 : Nat) (rest out : List Char) (dotdot : Nat),
      rest.length ≤ f1 → rest.length ≤ f2 →
      cleanLoop rooted f1 rest out dotdot = cleanLoop rooted f2 rest out dotdot := by
  intro f1
  induction f1 with
  | zero =>
    intro f2 rest out dotdot h1 _
    cases rest with
    | nil => cases f2 <;> simp [cleanLoop]
    | cons c cs => simp at h1
  | succ f1 ih =>
    intro f2 rest out dotdot h1 h2
    cases rest with
    | nil => cases f2 <;> simp [cleanLoop]
    | cons c cs =>
      cases f2 with
      | zero => simp at h2
      | succ f2 =>
        have hcs : cs.length ≤ f1 := by simpa using h1
        have hcs2 : cs.length ≤ f2 := by simpa using h2
        have hl := List.length_tail cs
        unfold cleanLoop
        split_ifs with h1 h2 h3 h4 h5
        · exact ih _ _ _ _ hcs hcs2
        · exact ih _ _ _ _ hcs hcs2
        · exact ih _ _ _ _ (by omega) (by omega)
        · exact ih _ _ _ _ (by omega) (by omega)
        · exact ih _ _ _ _ (by omega) (by omega)
        · have hd := dropWhile_notSep_length c cs (by simpa using h1)
          exact ih _ _ _ _ (by omega) (by omega)

theorem cleanLoop_cons (rooted : Bool) (fuel : Nat) (c : Char) (cs out : List Char)
    (dotdot : Nat) :
    cleanLoop rooted (fuel + 1) (c :: cs) out dotdot =
      if IsPathSeparator c then cleanLoop rooted fuel cs out dotdot
      else if dotElem c cs then cleanLoop rooted fuel cs out dotdot
      else if dotDotElem c cs then
        if dotdot < out.length then
          cleanLoop rooted fuel cs.tail
            (out.take (backtrackLoop out dotdot (out.length - 1))) dotdot
        else if !rooted then
          cleanLoop rooted fuel cs.tail (appendDotDot out) (appendDotDot out).length
        else cleanLoop rooted fuel cs.tail out dotdot
      else
        cleanLoop rooted fuel ((c :: cs).dropWhile (fun x => !IsPathSeparator x))
          (addSlashIfNeeded rooted out ++ (c :: cs).takeWhile (fun x => !IsPathSeparator x))
          dotdot := by
  simp only [cleanLoop]

/-- A rooted run of the loop keeps the leading separator of the buffer. -/
theorem cleanLoop_rooted_head :
    ∀ (fuel : Nat) (rest out : List Char) (dotdot : Nat) (res : List Char),
      out.head? = some '/' → 1 ≤ dotdot →
      cleanLoop true fuel rest out dotdot = some res → res.head? = some '/' := by
  intro fuel
  induction fuel with
  | zero =>
    intro rest out dotdot res ho _ h
    cases rest with
    | nil => simp [cleanLoop] at h; subst h; exact ho
    | cons c cs => simp [cleanLoop] at h
  | succ fuel ih =>
    intro rest out dotdot res ho hd h
    cases rest with
    | nil => simp [cleanLoop] at h; subst h; exact ho
    | cons c cs =>
      rw [cleanLoop_cons] at h
      split_ifs at h with h1 h2 h3 h4 h5
      · exact ih _ _ _ _ ho hd h
      · exact ih _ _ _ _ ho hd h
      · refine ih _ _ _ _ ?_ hd h
        have hb := backtrackLoop_ge out dotdot (out.length - 1) (by omega)
        cases out with
        | nil => simp at ho
        | cons x xs =>
          have : ∃ k, backtrackLoop (x :: xs) dotdot ((x :: xs).length - 1) = k + 1 :=
            ⟨backtrackLoop (x :: xs) dotdot ((x :: xs).length - 1) - 1, by omega⟩
          obtain ⟨k, hk⟩ := this
          rw [hk]
          simpa using ho
      · simp at h5
      · exact ih _ _ _ _ ho hd h
      · refine ih _ _ _ _ ?_ hd h
        cases out with
        | nil => simp at ho
        | cons x xs =>
          unfold addSlashIfNeeded
          split <;> simpa using ho

theorem atEndOrSep_snoc (cs : List Char) : atEndOrSep (cs ++ ['/']) = atEndOrSep cs := by
  cases cs <;> simp [atEndOrSep, IsPathSeparator]

theorem dotElem_snoc (c : Char) (cs : List Char) :
    dotElem c (cs ++ ['/']) = dotElem c cs := by
  simp [dotElem, atEndOrSep_snoc]

theorem dotDotElem_snoc (c : Char) (cs : List Char) :
    dotDotElem c (cs ++ ['/']) = dotDotElem c cs := by
  cases cs with
  | nil => simp [dotDotElem]
  | cons d ds => simp [dotDotElem, atEndOrSep_snoc]

theorem dotDotElem_ne_nil (c : Char) (cs : List Char) (h : dotDotElem c cs = true) :
    cs ≠ [] := by
  rintro rfl
  simp [dotDotElem] at h

theorem takeWhile_snoc_sep (l : List Char) :
    (l ++ ['/']).takeWhile (fun x => !IsPathSeparator x) =
      l.takeWhile (fun x => !IsPathSeparator x) := by
  induction l with
  | nil => simp [List.takeWhile, IsPathSeparator]
  | cons a l ih =>
    by_cases ha : IsPathSeparator a = true
    · simp [List.takeWhile, ha]
    · simp [List.takeWhile, ha, ih]

theorem dropWhile_snoc_sep (l : List Char) :
    (l ++ ['/']).dropWhile (fun x => !IsPathSeparator x) =
      l.dropWhile (fun x => !IsPathSeparator x) ++ ['/'] := by
  induction l with
  | nil => simp [List.dropWhile, IsPathSeparator]
  | cons a l ih =>
    by_cases ha : IsPathSeparator a = true
    · simp [List.dropWhile, ha]
    · simp [List.dropWhile, ha, ih]

/-- A trailing separator is an empty path element: it changes nothing. -/
theorem cleanLoop_snoc_sep (rooted : Bool) :
    ∀ (fuel : Nat) (rest out : List Char) (dotdot : Nat), rest.length ≤ fuel →
      cleanLoop rooted (fuel + 1) (rest ++ ['/']) out dotdot =
        cleanLoop rooted fuel rest out dotdot := by
  intro fuel
  induction fuel with
  | zero =>
    intro rest out dotdot h
    cases rest with
    | nil => simp [cleanLoop, IsPathSeparator]
    | cons c cs => simp at h
  | succ fuel ih =>
    intro rest out dotdot h
    cases rest with
    | nil => simp [cleanLoop, IsPathSeparator]
    | cons c cs =>
      have hcs : cs.length ≤ fuel := by simpa using h
      have hl := List.length_tail cs
      have htw := takeWhile_snoc_sep (c :: cs)
      have hdw := dropWhile_snoc_sep (c :: cs)
      rw [List.cons_append] at htw hdw
      rw [List.cons_append, cleanLoop_cons, cleanLoop_cons, dotElem_snoc, dotDotElem_snoc,
        htw, hdw]
      split_ifs with h1 h2 h3 h4 h5
      · exact ih _ _ _ hcs
      · exact ih _ _ _ hcs
      · rw [List.tail_append_of_ne_nil (dotDotElem_ne_nil c cs h3)]
        exact ih _ _ _ (by omega)
      · rw [List.tail_append_of_ne_nil (dotDotElem_ne_nil c cs h3)]
        exact ih _ _ _ (by omega)
      · rw [List.tail_append_of_ne_nil (dotDotElem_ne_nil c cs h3)]
        exact ih _ _ _ (by omega)
      · have hd := dropWhile_notSep_length c cs (by simpa using h1)
        exact ih _ _ _ (by omega)

/-- The fuel `Clean` hands to its loop is enough: the loop always returns. -/
theorem cleanChars_loop_finishes (c : Char) (cs : List Char) :
    (∃ res, cleanLoop (IsPathSeparator c) (c :: cs).length cs ['/'] 1 = some res) ∧
    (∃ res, cleanLoop (IsPathSeparator c) (c :: cs).length (c :: cs) [] 0 = some res) :=
  ⟨cleanLoop_isSome _ _ _ _ _ (by simp), cleanLoop_isSome _ _ _ _ _ (le_refl _)⟩

/-- Cleaning a rooted path gives a rooted path. -/
theorem cleanChars_rooted (cs : List Char) : (cleanChars ('/' :: cs)).head? = some '/' := by
  obtain ⟨res, hres⟩ := cleanLoop_isSome true (cs.length + 1) cs ['/'] 1 (by omega)
  have hhead := cleanLoop_rooted_head _ _ _ _ _ (by simp) (le_refl 1) hres
  have hne : res ≠ [] := by
    rintro rfl
    simp at hhead
  have hlen : res.length ≠ 0 := by
    intro h0
    exact hne (List.length_eq_zero.mp h0)
  simp [cleanChars, IsPathSeparator, hres, hlen, hhead]

/-- A trailing separator does not change the cleaned form of a non-empty path. -/
theorem cleanChars_snoc_sep (l : List Char) (hl : l ≠ []) :
    cleanChars (l ++ ['/']) = cleanChars l := by
  cases l with
  | nil => exact absurd rfl hl
  | cons c cs =>
    have e1 : cleanLoop (IsPathSeparator c) ((c :: (cs ++ ['/'])).length) (cs ++ ['/']) ['/'] 1
        = cleanLoop (IsPathSeparator c) ((c :: cs).length) cs ['/'] 1 := by
      rw [cleanLoop_fuel _ ((c :: (cs ++ ['/'])).length) (cs.length + 1) (cs ++ ['/'])
        ['/'] 1 (by simp) (by simp)]
      rw [cleanLoop_snoc_sep _ _ _ _ _ (le_refl _)]
      exact cleanLoop_fuel _ _ _ _ _ _ (le_refl _) (by simp)
    have e2 : cleanLoop (IsPathSeparator c) ((c :: (cs ++ ['/'])).length) (c :: (cs ++ ['/'])) [] 0
        = cleanLoop (IsPathSeparator c) ((c :: cs).length) (c :: cs) [] 0 := by
      have h := cleanLoop_snoc_sep (IsPathSeparator c) (cs.length + 1) (c :: cs) [] 0 (by simp)
      rw [List.cons_append] at h
      simpa using h
    simp only [List.cons_append, cleanChars, e1, e2]

theorem IsAbs_iff_head (p : String) : IsAbs p = true ↔ p.data.head? = some '/' := by
  unfold IsAbs
  cases p.data with
  | nil => simp
  | cons c cs => simp

theorem IsAbs_ne_empty (p : String) (h : IsAbs p = true) : p ≠ "" := by
  rintro rfl
  simp [IsAbs] at h

theorem IsAbs_append (a b : String) (h : IsAbs a = true) : IsAbs (a ++ b) = true := by
  rw [IsAbs_iff_head] at h ⊢
  rw [String.data_append]
  cases hd : a.data with
  | nil => simp [hd] at h
  | cons c cs => simpa [hd] using h

theorem IsAbs_Clean (p : String) (h : IsAbs p = true) : IsAbs (Clean p) = true := by
  rw [IsAbs_iff_head] at h ⊢
  cases hd : p.data with
  | nil => simp [hd] at h
  | cons c cs =>
    rw [hd] at h
    simp only [List.head?_cons, Option.some.injEq] at h
    subst h
    simpa [Clean, hd] using cleanChars_rooted cs

theorem Clean_snoc_sep (p : String) (h : p ≠ "") : Clean (p ++ "/") = Clean p := by
  have hd : p.data ≠ [] := by
    intro h0
    exact h (String.ext h0)
  unfold Clean
  rw [String.data_append]
  exact congrArg String.mk (cleanChars_snoc_sep p.data hd)

/-- With an absolute working directory every joined path is absolute. -/
theorem Join_abs (wd p : String) (h : IsAbs wd = true) : IsAbs (Join [wd, p]) = true := by
  rw [Join_pair_of_ne wd p (IsAbs_ne_empty wd h)]
  rw [String.append_assoc]
  exact IsAbs_Clean _ (IsAbs_append _ _ h)

/-- Joining a non-empty directory with the empty string cleans the directory. -/
theorem Join_empty_right (wd : String) (h : wd ≠ "") : Join [wd, ""] = Clean wd := by
  rw [Join_pair_of_ne wd "" h]
  simpa using Clean_snoc_sep wd h

/-! ## The claims -/

/-- C1: every builder returns a configuration that agrees with the receiver in
all fields other than the one the builder is named after (the receiver is a
value and is not touched), and for the ten non-path builders the named field of
the result is the argument itself. -/
theorem C1_builders_change_one_field (getwd : WdLookup) (c : Config CL RF) :
    (∀ b : Builder CL RF, agreeOutside b.field (b.apply getwd c) c) ∧
    (∀ v, (c.Version v).version = v) ∧
    (∀ n, (c.Port n).port = n) ∧
    (∀ d, (c.Database d).database = d) ∧
    (∀ u, (c.Username u).username = u) ∧
    (∀ w, (c.Password w).password = w) ∧
    (∀ l, (c.Locale l).locale = l) ∧
    (∀ t, (c.StartTimeout t).startTimeout = t) ∧
    (∀ l, (c.Logger l).logger = l) ∧
    (∀ cl, (c.CacheLocator cl).cacheLocator = cl) ∧
    (∀ u, (c.Unpacker u).unpacker = u) :=
  ⟨fun b => apply_agreeOutside getwd c b, fun _ => rfl, fun _ => rfl, fun _ => rfl,
    fun _ => rfl, fun _ => rfl, fun _ => rfl, fun _ => rfl, fun _ => rfl, fun _ => rfl,
    fun _ => rfl⟩

/-- C2: for a relative path `p` and a successful lookup of the working
directory `wd`, `RuntimePath` and `DataPath` store `filepath.Join(wd, p)`; the
stored string stays the same under every later builder call for another field,
whatever the working directory is by then. -/
theorem C2_relative_path_resolved_at_build_time (c : Config CL RF)
    (getwd later : WdLookup) (wd p : String)
    (hrel : IsAbs p = false) (hok : getwd.err = none) (hwd : getwd.dir = wd) :
    (c.RuntimePath getwd p).runtimePath = Join [wd, p] ∧
    (c.DataPath getwd p).dataPath = Join [wd, p] ∧
    (∀ b : Builder CL RF, b.field ≠ Field.runtimePath →
      (b.apply later (c.RuntimePath getwd p)).runtimePath = Join [wd, p]) ∧
    (∀ b : Builder CL RF, b.field ≠ Field.dataPath →
      (b.apply later (c.DataPath getwd p)).dataPath = Join [wd, p]) := by
  have _ := hok
  subst hwd
  have hr : (c.RuntimePath getwd p).runtimePath = Join [getwd.dir, p] := by
    rw [RuntimePath_rel c getwd p hrel]
  have hd : (c.DataPath getwd p).dataPath = Join [getwd.dir, p] := by
    rw [DataPath_rel c getwd p hrel]
  refine ⟨hr, hd, ?_, ?_⟩
  · intro b hb
    have h := apply_agreeOutside later (c.RuntimePath getwd p) b
    rw [h.2.2.2.2.2.1 hb, hr]
  · intro b hb
    have h := apply_agreeOutside later (c.DataPath getwd p) b
    rw [h.2.2.2.2.2.2.1 hb, hd]

/-- C2 at a concrete input: `"data"` set while in `/home/u`. -/
theorem C2_witness :
    (IsAbs "data" = false ∧ homeLookup.err = none ∧ homeLookup.dir = "/home/u") ∧
    ((DefaultConfig : Config Unit Unit).RuntimePath homeLookup "data").runtimePath
      = Join ["/home/u", "data"] ∧
    Join ["/home/u", "data"] = "/home/u/data" :=
  ⟨⟨by decide, rfl, rfl⟩,
    (C2_relative_path_resolved_at_build_time (DefaultConfig : Config Unit Unit)
      homeLookup srvLookup "/home/u" "data" (by decide) rfl rfl).1,
    by decide⟩

/-- C3: the defaults are port 5432, database, username and password
`"postgres"`, a start timeout of 15 seconds (in nanoseconds), the process
standard output as logger, empty runtime path, data path and locale, and all
three strategies unset. -/
theorem C3_default_config_fields :
    (DefaultConfig : Config CL RF).port = 5432 ∧
    (DefaultConfig : Config CL RF).database = "postgres" ∧
    (DefaultConfig : Config CL RF).username = "postgres" ∧
    (DefaultConfig : Config CL RF).password = "postgres" ∧
    (DefaultConfig : Config CL RF).startTimeout = 15 * Second ∧
    (DefaultConfig : Config CL RF).startTimeout = 15000000000 ∧
    (DefaultConfig : Config CL RF).logger = some Writer.osStdout ∧
    (DefaultConfig : Config CL RF).runtimePath = "" ∧
    (DefaultConfig : Config CL RF).dataPath = "" ∧
    (DefaultConfig : Config CL RF).locale = "" ∧
    (DefaultConfig : Config CL RF).cacheLocator = none ∧
    (DefaultConfig : Config CL RF).remoteFetchStrategy = none ∧
    (DefaultConfig : Config CL RF).unpacker = none :=
  ⟨rfl, rfl, rfl, rfl, rfl, by norm_num [DefaultConfig, Second], rfl, rfl, rfl, rfl, rfl,
    rfl, rfl⟩

/-- C4, as stated, fails: the default version is not the greatest predefined
version, `V13` is a predefined version that is newer. -/
theorem C4_default_version_not_latest :
    ¬ (∀ v ∈ predefinedVersions,
        semverLt (DefaultConfig : Config Unit Unit).version v = false) := by
  intro h
  have h13 := h V13 (by simp [predefinedVersions])
  revert h13
  decide

/-- C4, amended: the default version is `V12`, that is `"12.6.0"`; among the
predefined versions exactly `V13` is newer, and `V11`, `V10`, `V9` are older. -/
theorem C4_default_version_is_V12 :
    (DefaultConfig : Config CL RF).version = V12 ∧
    (DefaultConfig : Config CL RF).version = "12.6.0" ∧
    (∀ v ∈ predefinedVersions,
      semverLt (DefaultConfig : Config CL RF).version v = true ↔ v = V13) ∧
    semverLt V11 V12 = true ∧ semverLt V10 V12 = true ∧ semverLt V9 V12 = true := by
  refine ⟨rfl, rfl, ?_, by decide, by decide, by decide⟩
  show ∀ v ∈ predefinedVersions, semverLt V12 v = true ↔ v = V13
  decide

/-- C5: the default unpacker returns nil exactly when the extraction returned
nil; when the extraction fails it returns the error
`unable to extract postgres archive <source> to <destination>`, whose text
contains both the source and the destination. -/
theorem C5_default_unpacker_reports_failure
    (unarchive : String → String → Option String) (source destination : String) :
    (defaultUnpacker unarchive source destination = none ↔
      unarchive source destination = none) ∧
    (∀ e, unarchive source destination = some e →
      defaultUnpacker unarchive source destination =
        some ("unable to extract postgres archive " ++ source ++ " to " ++ destination)) ∧
    (∀ msg, defaultUnpacker unarchive source destination = some msg →
      occursIn source msg ∧ occursIn destination msg) := by
  unfold defaultUnpacker
  cases hu : unarchive source destination with
  | none => simp
  | some e =>
    refine ⟨by simp, by simp, ?_⟩
    intro msg hmsg
    simp only [Option.some.injEq] at hmsg
    subst hmsg
    refine ⟨⟨"unable to extract postgres archive ", " to " ++ destination, ?_⟩,
      ⟨"unable to extract postgres archive " ++ source ++ " to ", "", ?_⟩⟩
    · simp [String.append_assoc]
    · simp

/-- C6: `Version` is total and performs no validation: the version field of
the result is the argument, whatever string it is. -/
theorem C6_version_not_validated (c : Config CL RF) (v : PostgresVersion) :
    (c.Version v).version = v ∧
    (v ∉ predefinedVersions → (c.Version v).version = v) :=
  ⟨rfl, fun _ => rfl⟩

/-- C7, as stated, fails: no builder call sets the remote fetch strategy to a
given value. -/
theorem C7_no_remote_fetch_builder :
    ¬ (∃ mk : Option Nat → Builder Unit Nat,
        ∀ (getwd : WdLookup) (c : Config Unit Nat) (s : Option Nat),
          ((mk s).apply getwd c).remoteFetchStrategy = s) := by
  rintro ⟨mk, h⟩
  have h1 := h homeLookup DefaultConfig (some 0)
  rw [apply_keeps_remoteFetchStrategy] at h1
  simp [DefaultConfig] at h1

/-- C7, amended: the cache locator and the unpacker can be overridden, the
builders `CacheLocator` and `Unpacker` store the given strategy; every builder
of `config.go` leaves the remote fetch strategy as it was. -/
theorem C7_strategy_overrides (getwd : WdLookup) (c : Config CL RF)
    (cl : Option CL) (u : Option Unpacker) :
    (c.CacheLocator cl).cacheLocator = cl ∧
    (c.Unpacker u).unpacker = u ∧
    (∀ b : Builder CL RF, (b.apply getwd c).remoteFetchStrategy = c.remoteFetchStrategy) :=
  ⟨rfl, rfl, fun b => apply_keeps_remoteFetchStrategy getwd c b⟩

/-- C8, as stated, fails: with a failed lookup and the relative path `"data"`
both path builders return a configuration that holds the path `"data"`; no
error reaches the caller. -/
theorem C8_failed_lookup_still_stores_a_path :
    failedLookup.err ≠ none ∧ IsAbs "data" = false ∧
    ((DefaultConfig : Config Unit Unit).RuntimePath failedLookup "data").runtimePath = "data" ∧
    ((DefaultConfig : Config Unit Unit).DataPath failedLookup "data").dataPath = "data" := by
  decide

/-- C8, amended: a failed lookup is not reported; the builders discard the
error and store `filepath.Join(dir, p)` for the directory string `dir` the
lookup returned, which for the empty `dir` of a failed lookup is the empty path
when `p` is empty and `filepath.Clean(p)` otherwise. -/
theorem C8_lookup_error_discarded (c : Config CL RF) (getwd : WdLookup) (p e : String)
    (hrel : IsAbs p = false) (hfail : getwd.err = some e) :
    (c.RuntimePath getwd p).runtimePath = Join [getwd.dir, p] ∧
    (c.DataPath getwd p).dataPath = Join [getwd.dir, p] ∧
    (getwd.dir = "" →
      (c.RuntimePath getwd p).runtimePath = (if p = "" then "" else Clean p) ∧
      (c.DataPath getwd p).dataPath = (if p = "" then "" else Clean p)) := by
  have _ := hfail
  have hr : (c.RuntimePath getwd p).runtimePath = Join [getwd.dir, p] := by
    rw [RuntimePath_rel c getwd p hrel]
  have hd : (c.DataPath getwd p).dataPath = Join [getwd.dir, p] := by
    rw [DataPath_rel c getwd p hrel]
  refine ⟨hr, hd, ?_⟩
  intro h0
  rw [hr, hd, h0, Join_empty_left]
  exact ⟨rfl, rfl⟩

/-- C8, amended, at a concrete input: `"pg/../data"` under a failed lookup. -/
theorem C8_witness :
    (IsAbs "pg/../data" = false ∧ failedLookup.err = some "getwd: no such file or directory") ∧
    ((DefaultConfig : Config Unit Unit).RuntimePath failedLookup "pg/../data").runtimePath
      = Join [failedLookup.dir, "pg/../data"] ∧
    Join [failedLookup.dir, "pg/../data"] = "data" :=
  ⟨⟨by decide, rfl⟩,
    (C8_lookup_error_discarded (DefaultConfig : Config Unit Unit) failedLookup "pg/../data"
      "getwd: no such file or directory" (by decide) rfl).1,
    by decide⟩

/-- C9: an absolute path is stored as given, character for character, by
`RuntimePath` and `DataPath`, and the returned configuration is the same under
any two states of the working-directory lookup. -/
theorem C9_absolute_path_stored_verbatim (c : Config CL RF) (getwd getwd2 : WdLookup)
    (p : String) (habs : IsAbs p = true) :
    (c.RuntimePath getwd p).runtimePath = p ∧
    (c.DataPath getwd p).dataPath = p ∧
    c.RuntimePath getwd p = c.RuntimePath getwd2 p ∧
    c.DataPath getwd p = c.DataPath getwd2 p := by
  rw [RuntimePath_abs c getwd p habs, RuntimePath_abs c getwd2 p habs,
    DataPath_abs c getwd p habs, DataPath_abs c getwd2 p habs]
  exact ⟨rfl, rfl, rfl, rfl⟩

/-- C9 at a concrete input: `"/a/../b"` stays `"/a/../b"`, with a successful
and with a failed lookup. -/
theorem C9_witness :
    IsAbs "/a/../b" = true ∧
    ((DefaultConfig : Config Unit Unit).RuntimePath homeLookup "/a/../b").runtimePath
      = "/a/../b" ∧
    ((DefaultConfig : Config Unit Unit).DataPath homeLookup "/a/../b").dataPath
      = "/a/../b" ∧
    (DefaultConfig : Config Unit Unit).RuntimePath homeLookup "/a/../b"
      = (DefaultConfig : Config Unit Unit).RuntimePath failedLookup "/a/../b" ∧
    (DefaultConfig : Config Unit Unit).DataPath homeLookup "/a/../b"
      = (DefaultConfig : Config Unit Unit).DataPath failedLookup "/a/../b" :=
  ⟨by decide,
    C9_absolute_path_stored_verbatim (DefaultConfig : Config Unit Unit) homeLookup
      failedLookup "/a/../b" (by decide)⟩

/-- C10, as stated, fails: the lookup succeeds with the absolute directory
`/tmp/`, and for the empty path the builders store `/tmp`, not the directory
string itself. -/
theorem C10_empty_path_not_wd_itself :
    trailingSlashLookup.err = none ∧ IsAbs trailingSlashLookup.dir = true ∧
    ((DefaultConfig : Config Unit Unit).RuntimePath trailingSlashLookup "").runtimePath
      = "/tmp" ∧
    ((DefaultConfig : Config Unit Unit).RuntimePath trailingSlashLookup "").runtimePath
      ≠ trailingSlashLookup.dir ∧
    ((DefaultConfig : Config Unit Unit).DataPath trailingSlashLookup "").dataPath
      ≠ trailingSlashLookup.dir := by
  decide

/-- C10, amended: after a successful lookup of an absolute directory `wd` the
stored runtime or data path is a non-empty absolute path for every string `p`;
for the empty `p` it is `filepath.Clean(wd)`, which is `wd` itself when `wd` is
already clean; and applying the builder again to the stored path, under any
later lookup, returns the same configuration. -/
theorem C10_stored_path_absolute (c : Config CL RF) (getwd later : WdLookup) (p : String)
    (hok : getwd.err = none) (habs : IsAbs getwd.dir = true) :
    (IsAbs (c.RuntimePath getwd p).runtimePath = true ∧
      (c.RuntimePath getwd p).runtimePath ≠ "") ∧
    (IsAbs (c.DataPath getwd p).dataPath = true ∧
      (c.DataPath getwd p).dataPath ≠ "") ∧
    ((c.RuntimePath getwd "").runtimePath = Clean getwd.dir ∧
      (c.DataPath getwd "").dataPath = Clean getwd.dir) ∧
    (Clean getwd.dir = getwd.dir →
      (c.RuntimePath getwd "").runtimePath = getwd.dir ∧
      (c.DataPath getwd "").dataPath = getwd.dir) ∧
    (c.RuntimePath getwd p).RuntimePath later (c.RuntimePath getwd p).runtimePath
      = c.RuntimePath getwd p ∧
    (c.DataPath getwd p).DataPath later (c.DataPath getwd p).dataPath
      = c.DataPath getwd p := by
  have _ := hok
  have hne := IsAbs_ne_empty _ habs
  have hr : IsAbs (c.RuntimePath getwd p).runtimePath = true := by
    cases hp : IsAbs p with
    | true => rw [RuntimePath_abs c getwd p hp]; exact hp
    | false => rw [RuntimePath_rel c getwd p hp]; exact Join_abs _ _ habs
  have hd : IsAbs (c.DataPath getwd p).dataPath = true := by
    cases hp : IsAbs p with
    | true => rw [DataPath_abs c getwd p hp]; exact hp
    | false => rw [DataPath_rel c getwd p hp]; exact Join_abs _ _ habs
  have he : IsAbs "" = false := by decide
  have hr0 : (c.RuntimePath getwd "").runtimePath = Clean getwd.dir := by
    rw [RuntimePath_rel c getwd "" he]
    exact Join_empty_right _ hne
  have hd0 : (c.DataPath getwd "").dataPath = Clean getwd.dir := by
    rw [DataPath_rel c getwd "" he]
    exact Join_empty_right _ hne
  refine ⟨⟨hr, IsAbs_ne_empty _ hr⟩, ⟨hd, IsAbs_ne_empty _ hd⟩, ⟨hr0, hd0⟩, ?_, ?_, ?_⟩
  · intro hc
    rw [hr0, hd0, hc]
    exact ⟨rfl, rfl⟩
  · rw [RuntimePath_abs _ later _ hr]
  · rw [DataPath_abs _ later _ hd]

/-- C10, amended, at a concrete input: `"../pg"` set while in `/home/u`. -/
theorem C10_witness :
    (homeLookup.err = none ∧ IsAbs homeLookup.dir = true) ∧
    (IsAbs ((DefaultConfig : Config Unit Unit).RuntimePath homeLookup "../pg").runtimePath
        = true ∧
      ((DefaultConfig : Config Unit Unit).RuntimePath homeLookup "../pg").runtimePath ≠ "") ∧
    ((DefaultConfig : Config Unit Unit).RuntimePath homeLookup "../pg").runtimePath
      = "/home/pg" :=
  ⟨⟨rfl, by decide⟩,
    (C10_stored_path_absolute (DefaultConfig : Config Unit Unit) homeLookup srvLookup
      "../pg" rfl (by decide)).1,
    by decide⟩

end EmbeddedPostgres
